import Mathlib

/-!
Shallow embedding of the Snake Q-learning trainer (`ai.py`) and its game
simulation (`game.py`).  Positions are pairs of integers (pixel coordinates,
multiples of the block size); Python floats are modelled exactly as rationals;
the pseudo-random generator is modelled as explicit streams of draws threaded
through the state; the unbounded fruit-respawn retry loop is modelled with
fuel, `none` standing for non-termination of the loop.
-/

set_option maxRecDepth 100000

/-- A pixel position on the board, as in `game.py` (tuples of ints). -/
abbrev Pos := ℤ × ℤ

/-- `Direction` enum from `game.py`. -/
inductive Direction : Type
  | UP
  | DOWN
  | LEFT
  | RIGHT
deriving DecidableEq, Repr

/-- The `value` of a `Direction` member: its (dx, dy) offset pair. -/
def Direction.value : Direction → ℤ × ℤ
  | .UP => (0, -1)
  | .DOWN => (0, 1)
  | .LEFT => (-1, 0)
  | .RIGHT => (1, 0)

/-- `Snake` from `game.py` (colors omitted: rendering only). -/
structure Snake where
  body : List Pos
  direction : Direction
  blockSize : ℤ
  growthPending : Bool
deriving DecidableEq, Repr

/-- `Snake.__init__(start_pos, block_size)`. -/
def Snake.init (startPos : Pos) (blockSize : ℤ) : Snake :=
  { body := [startPos], direction := .RIGHT, blockSize := blockSize,
    growthPending := false }

/-- `Snake.move`: prepend the new head; pop the tail unless growth is pending. -/
def Snake.move (s : Snake) : Snake :=
  let currentHead := s.body.headI
  let d := s.direction.value
  let newHead : Pos := (currentHead.1 + d.1 * s.blockSize, currentHead.2 + d.2 * s.blockSize)
  let body1 := newHead :: s.body
  if ¬ s.growthPending then
    { s with body := body1.dropLast }
  else
    { s with body := body1, growthPending := false }

/-- `Snake.grow`: set the growth flag. -/
def Snake.grow (s : Snake) : Snake :=
  { s with growthPending := true }

/-- `Snake.check_collision(width, height)`: head out of bounds or in the tail. -/
def Snake.checkCollision (s : Snake) (width height : ℤ) : Bool :=
  let head := s.body.headI
  if head.1 < 0 ∨ head.1 ≥ width ∨ head.2 < 0 ∨ head.2 ≥ height then
    true
  else if head ∈ s.body.tail then
    true
  else
    false

/-- `Fruit` from `game.py` (colors omitted: rendering only). -/
structure Fruit where
  blockSize : ℤ
  width : ℤ
  height : ℤ
  position : Pos
  points : ℤ
deriving DecidableEq, Repr

/-- Python's `random.randrange(lo, hi, step)`, driven by one draw `r` from the
random stream: the `r % count`-th element of `lo, lo+step, ...` below `hi`. -/
def randrangeInt (lo hi step : ℤ) (r : ℕ) : ℤ :=
  let count := ((hi - lo + step - 1) / step).toNat
  lo + step * (r % count : ℕ)

/-- `Fruit.respawn`, driven by two draws: one random x and one random y inside
the safe margins.  No check against the snake body happens here. -/
def Fruit.respawn (f : Fruit) (rx ry : ℕ) : Fruit :=
  let minX := f.blockSize * 2
  let maxX := f.width - f.blockSize * 2
  let minY := f.blockSize * 2
  let maxY := f.height - f.blockSize * 2
  let x := randrangeInt minX maxX f.blockSize rx
  let y := randrangeInt minY maxY f.blockSize ry
  { f with position := (x, y) }

/-- `Fruit.__init__(width, height, block_size)`: position starts at (0,0),
then a single `respawn` (no body check). -/
def Fruit.init (width height blockSize : ℤ) (rx ry : ℕ) : Fruit :=
  Fruit.respawn
    { blockSize := blockSize, width := width, height := height,
      position := (0, 0), points := 1 } rx ry

/-- `Game` from `game.py` (screen/clock/visibility omitted: rendering only). -/
structure Game where
  width : ℤ
  height : ℤ
  blockSize : ℤ
  snake : Snake
  fruit : Fruit
  score : ℤ
  gameOver : Bool
  speed : ℤ
deriving DecidableEq, Repr

/-- `Game.__init__(width=800, height=600)`: snake spawns at the grid center,
fruit takes a single unchecked respawn. -/
def Game.init (rx ry : ℕ) : Game :=
  let width : ℤ := 800
  let height : ℤ := 600
  let blockSize : ℤ := 20
  let spawnPos : Pos := (width / 2, height / 2)
  { width := width, height := height, blockSize := blockSize,
    snake := Snake.init spawnPos blockSize,
    fruit := Fruit.init width height blockSize rx ry,
    score := 0, gameOver := false, speed := 10 }

/-- `Game.reset`: fresh snake at the center, a single unchecked fruit respawn,
score/game_over/speed reset. -/
def Game.reset (g : Game) (rx ry : ℕ) : Game :=
  let spawnPos : Pos := (g.width / 2, g.height / 2)
  { g with snake := Snake.init spawnPos g.blockSize,
           fruit := g.fruit.respawn rx ry,
           score := 0, gameOver := false, speed := 10 }

/-- The `while self.fruit.position in self.snake.body: self.fruit.respawn()`
retry loop of `Game.update`, preceded by the unconditional first `respawn`.
`rng` is the stream of randrange draws, `c` the next unused index; each
respawn consumes two draws. `none` models a run of the loop longer than
`fuel`. -/
def respawnLoop (rng : ℕ → ℕ) (body : List Pos) : ℕ → Fruit → ℕ → Option (Fruit × ℕ)
  | 0, _, _ => none
  | fuel + 1, f, c =>
    let f1 := f.respawn (rng c) (rng (c + 1))
    if f1.position ∈ body then
      respawnLoop rng body fuel f1 (c + 2)
    else
      some (f1, c + 2)

/-- `Game.update`: move, check collision, then fruit collection with the
respawn retry loop.  Returns the updated game and the next unused index of
the randrange stream; `none` models a divergent respawn loop. -/
def Game.update (g : Game) (rng : ℕ → ℕ) (fuel c : ℕ) : Option (Game × ℕ) :=
  if g.gameOver then
    some (g, c)
  else
    let s := g.snake.move
    if s.checkCollision g.width g.height then
      some ({ g with snake := s, gameOver := true }, c)
    else if s.body.headI = g.fruit.position then
      let s1 := s.grow
      let score1 := g.score + g.fruit.points
      let speed1 := min 20 (10 + score1 / 10)
      match respawnLoop rng s1.body fuel g.fruit c with
      | none => none
      | some (f1, c1) =>
        some ({ g with snake := s1, fruit := f1, score := score1, speed := speed1 }, c1)
    else
      some ({ g with snake := s }, c)

/-- `EncodedState`: the 11-boolean tuple returned by `SnakeAI.get_state`,
with one named field per tuple slot, in the tuple's order. -/
structure EncState where
  dangerStraight : Bool
  dangerLeft : Bool
  dangerRight : Bool
  fruitRight : Bool
  fruitLeft : Bool
  fruitBelow : Bool
  fruitAbove : Bool
  dirUp : Bool
  dirDown : Bool
  dirLeft : Bool
  dirRight : Bool
deriving DecidableEq, Repr

/-- `SnakeAI.get_state(game)`: dangers relative to the heading (walls, then
body segments), relative fruit direction, and the heading-identity flags. -/
def getState (game : Game) : EncState :=
  let snakeHead := game.snake.body.headI
  let fruitPos := game.fruit.position
  let relX := fruitPos.1 - snakeHead.1
  let relY := fruitPos.2 - snakeHead.2
  let currentDir := game.snake.direction
  let wallStraight : Bool :=
    match currentDir with
    | .UP => decide (snakeHead.2 - game.blockSize < 0)
    | .DOWN => decide (snakeHead.2 + game.blockSize ≥ game.height)
    | .LEFT => decide (snakeHead.1 - game.blockSize < 0)
    | .RIGHT => decide (snakeHead.1 + game.blockSize ≥ game.width)
  let wallLeft : Bool :=
    match currentDir with
    | .UP => decide (snakeHead.1 - game.blockSize < 0)
    | .DOWN => decide (snakeHead.1 + game.blockSize ≥ game.width)
    | .LEFT => decide (snakeHead.2 + game.blockSize ≥ game.height)
    | .RIGHT => decide (snakeHead.2 - game.blockSize < 0)
  let wallRight : Bool :=
    match currentDir with
    | .UP => decide (snakeHead.1 + game.blockSize ≥ game.width)
    | .DOWN => decide (snakeHead.1 - game.blockSize < 0)
    | .LEFT => decide (snakeHead.2 - game.blockSize < 0)
    | .RIGHT => decide (snakeHead.2 + game.blockSize ≥ game.height)
  let probeStraight : Pos :=
    match currentDir with
    | .UP => (snakeHead.1, snakeHead.2 - game.blockSize)
    | .DOWN => (snakeHead.1, snakeHead.2 + game.blockSize)
    | .LEFT => (snakeHead.1 - game.blockSize, snakeHead.2)
    | .RIGHT => (snakeHead.1 + game.blockSize, snakeHead.2)
  let probeLeft : Pos :=
    match currentDir with
    | .UP => (snakeHead.1 - game.blockSize, snakeHead.2)
    | .DOWN => (snakeHead.1 + game.blockSize, snakeHead.2)
    | .LEFT => (snakeHead.1, snakeHead.2 + game.blockSize)
    | .RIGHT => (snakeHead.1, snakeHead.2 - game.blockSize)
  let probeRight : Pos :=
    match currentDir with
    | .UP => (snakeHead.1 + game.blockSize, snakeHead.2)
    | .DOWN => (snakeHead.1 - game.blockSize, snakeHead.2)
    | .LEFT => (snakeHead.1, snakeHead.2 - game.blockSize)
    | .RIGHT => (snakeHead.1, snakeHead.2 + game.blockSize)
  let tail := game.snake.body.tail
  let dangerStraight := wallStraight || tail.any (fun seg => decide (probeStraight = seg))
  let dangerLeft := wallLeft || tail.any (fun seg => decide (probeLeft = seg))
  let dangerRight := wallRight || tail.any (fun seg => decide (probeRight = seg))
  { dangerStraight := dangerStraight,
    dangerLeft := dangerLeft,
    dangerRight := dangerRight,
    fruitRight := decide (relX > 0),
    fruitLeft := decide (relX < 0),
    fruitBelow := decide (relY > 0),
    fruitAbove := decide (relY < 0),
    dirUp := decide (currentDir = .UP),
    dirDown := decide (currentDir = .DOWN),
    dirLeft := decide (currentDir = .LEFT),
    dirRight := decide (currentDir = .RIGHT) }

/-- A Q-table row: the `[q0, q1, q2]` list of three action-values. -/
abbrev Vec3 := ℚ × ℚ × ℚ

/-- `self.q_table`: a mapping from encoded states to rows, as an association
list (most recent insertion first). -/
abbrev QTable := List (EncState × Vec3)

/-- Dictionary lookup in the Q-table. -/
def lookupT : QTable → EncState → Option Vec3
  | [], _ => none
  | (k, v) :: t, s => if s = k then some v else lookupT t s

/-- Lookup with the fresh-entry default `[0, 0, 0]`. -/
def lookupD (t : QTable) (s : EncState) : Vec3 :=
  (lookupT t s).getD (0, 0, 0)

/-- `if state not in self.q_table: self.q_table[state] = [0, 0, 0]`. -/
def ensureT (t : QTable) (s : EncState) : QTable :=
  match lookupT t s with
  | none => (s, (0, 0, 0)) :: t
  | some _ => t

/-- Replace the row stored under key `s` (a no-op when the key is absent, which
never happens after `ensureT`). -/
def setT : QTable → EncState → Vec3 → QTable
  | [], _, _ => []
  | (k, v) :: t, s, w => if s = k then (s, w) :: t else (k, v) :: setT t s w

/-- Read entry `i` of a row. -/
def getA (i : Fin 3) (v : Vec3) : ℚ :=
  match i with
  | 0 => v.1
  | 1 => v.2.1
  | 2 => v.2.2

/-- Write entry `i` of a row. -/
def setA (i : Fin 3) (x : ℚ) (v : Vec3) : Vec3 :=
  match i with
  | 0 => (x, v.2.1, v.2.2)
  | 1 => (v.1, x, v.2.2)
  | 2 => (v.1, v.2.1, x)

/-- `np.max` over a row. -/
def maxV (v : Vec3) : ℚ :=
  max v.1 (max v.2.1 v.2.2)

/-- `np.argmax` over a row: the lowest index attaining the maximum. -/
def argmax3 (v : Vec3) : Fin 3 :=
  if v.1 ≥ v.2.1 then
    (if v.1 ≥ v.2.2 then 0 else 2)
  else
    (if v.2.1 ≥ v.2.2 then 1 else 2)

/-- `self.learning_rate = 0.05`. -/
def learningRate : ℚ := 1 / 20

/-- `self.discount_factor = 0.95`. -/
def discountFactor : ℚ := 19 / 20

/-- `self.epsilon = 1.0` (starting value). -/
def epsilonStart : ℚ := 1

/-- `self.epsilon_decay = 0.998`. -/
def epsilonDecay : ℚ := 499 / 500

/-- `self.epsilon_min = 0.01`. -/
def epsilonMin : ℚ := 1 / 100

/-- `SnakeAI.get_action(state)`, driven by the `random.random()` draw `u` and
the `random.randint(0, 2)` draw `ra`.  Returns the chosen action together
with the (possibly extended) table, since the greedy branch inserts a fresh
zero row for an unseen state. -/
def getAction (eps : ℚ) (u : ℚ) (ra : Fin 3) (t : QTable) (s : EncState) :
    Fin 3 × QTable :=
  if u < eps then
    (ra, t)
  else
    let t1 := ensureT t s
    (argmax3 (lookupD t1 s), t1)

/-- `SnakeAI.apply_action(game, action)`: a relative left/right turn for
actions 1/2, anything else leaves the game untouched. -/
def applyAction (game : Game) (action : ℤ) : Game :=
  let currentDirection := game.snake.direction
  if action = 1 then
    let d :=
      match currentDirection with
      | .UP => Direction.LEFT
      | .LEFT => Direction.DOWN
      | .DOWN => Direction.RIGHT
      | _ => Direction.UP
    { game with snake := { game.snake with direction := d } }
  else if action = 2 then
    let d :=
      match currentDirection with
      | .UP => Direction.RIGHT
      | .RIGHT => Direction.DOWN
      | .DOWN => Direction.LEFT
      | _ => Direction.UP
    { game with snake := { game.snake with direction := d } }
  else
    game

/-- The Q-table update block of `SnakeAI.train` (lines 186-196): ensure both
states exist, then apply the Bellman formula to `t[old][a]`. -/
def qUpdate (lr γ : ℚ) (t : QTable) (old : EncState) (a : Fin 3) (r : ℚ)
    (new : EncState) : QTable :=
  let t1 := ensureT t old
  let t2 := ensureT t1 new
  let oldQ := getA a (lookupD t2 old)
  let nextMax := maxV (lookupD t2 new)
  let newQ := oldQ + lr * (r + γ * nextMax - oldQ)
  setT t2 old (setA a newQ (lookupD t2 old))

/-- The random draws consumed by the training loop: `random.random()` values,
`random.randint(0, 2)` values, and `random.randrange` values. -/
structure Rng where
  u : ℕ → ℚ
  a : ℕ → Fin 3
  rr : ℕ → ℕ

/-- The loop-carried state of one iteration of the episode loop in
`SnakeAI.train`.  `cu`, `ca`, `cr` index the next unused draw of each stream.
The `last*` fields record, for observation only, the transition fed to the
Q-table update in the most recent iteration. -/
structure TrainSt where
  game : Game
  table : QTable
  stepsWithoutFruit : ℕ
  movesMade : ℕ
  cu : ℕ
  ca : ℕ
  cr : ℕ
  lastOldState : EncState
  lastAction : Fin 3
  lastReward : ℚ
  lastNewState : EncState
  lastTableBeforeUpdate : QTable

/-- One iteration of the `while not game.game_over` loop of `SnakeAI.train`:
encode, choose and apply an action, advance the game, compute the reward and
the stagnation counter, and apply the Q-table update.  `eps` is the current
epsilon; `fuel` bounds the fruit-respawn retry loop, `none` modelling its
divergence. -/
def loopStep (eps : ℚ) (rng : Rng) (fuel : ℕ) (st : TrainSt) : Option TrainSt :=
  let oldState := getState st.game
  let oldScore := st.game.score
  let tookRandom : Bool := decide (rng.u st.cu < eps)
  let choice := getAction eps (rng.u st.cu) (rng.a st.ca) st.table oldState
  let action := choice.1
  let t1 := choice.2
  let g1 := applyAction st.game ((action : ℕ) : ℤ)
  match g1.update rng.rr fuel st.cr with
  | none => none
  | some gc =>
    let g2 := gc.1
    let cr1 := gc.2
    let newState := getState g2
    let newScore := g2.score
    let rsg : ℚ × ℕ × Game :=
      if g2.gameOver then
        (-10, st.stepsWithoutFruit, g2)
      else if newScore > oldScore then
        (10, 0, g2)
      else if st.stepsWithoutFruit + 1 > 100 then
        (-10, st.stepsWithoutFruit + 1, { g2 with gameOver := true })
      else
        (0, st.stepsWithoutFruit + 1, g2)
    let reward := rsg.1
    let swf1 := rsg.2.1
    let g3 := rsg.2.2
    let t2 := qUpdate learningRate discountFactor t1 oldState action reward newState
    some { game := g3, table := t2, stepsWithoutFruit := swf1,
           movesMade := st.movesMade + 1,
           cu := st.cu + 1,
           ca := st.ca + (if tookRandom then 1 else 0),
           cr := cr1,
           lastOldState := oldState, lastAction := action,
           lastReward := reward, lastNewState := newState,
           lastTableBeforeUpdate := t1 }

/-- `n` successive iterations of the episode loop body (regardless of the
`game_over` flag); used to replay concrete traces. -/
def iterSteps (eps : ℚ) (rng : Rng) (fuel : ℕ) : ℕ → TrainSt → Option TrainSt
  | 0, st => some st
  | n + 1, st =>
    match loopStep eps rng fuel st with
    | none => none
    | some st1 => iterSteps eps rng fuel n st1

/-- The episode loop `while not game.game_over` itself: stops as soon as the
flag is set, `none` when `maxIter` iterations do not reach termination (or a
respawn loop diverges). -/
def runEpisode (eps : ℚ) (rng : Rng) (fuel : ℕ) : ℕ → TrainSt → Option TrainSt
  | 0, st => if st.game.gameOver then some st else none
  | n + 1, st =>
    if st.game.gameOver then
      some st
    else
      match loopStep eps rng fuel st with
      | none => none
      | some st1 => runEpisode eps rng fuel n st1

/-- The end-of-episode epsilon decay of `SnakeAI.train` (lines 201-203):
`if self.epsilon > self.epsilon_min: self.epsilon *= self.epsilon_decay`. -/
def epsStep (e : ℚ) : ℚ :=
  if e > epsilonMin then e * epsilonDecay else e

/-- The value of `self.epsilon` after `n` completed episodes, starting from
`self.epsilon = 1.0`. -/
def epsAfter : ℕ → ℚ
  | 0 => epsilonStart
  | n + 1 => epsStep (epsAfter n)

/-- A sample encoded state used in concrete witnesses. -/
def stateA : EncState :=
  ⟨true, false, false, false, false, false, false, false, false, false, false⟩

/-- A second, distinct sample encoded state used in concrete witnesses. -/
def stateB : EncState :=
  ⟨false, false, false, false, false, false, false, false, false, false, false⟩

/-- A fresh loop state at the start of an episode on game `g`, as set up at
the top of each episode of `SnakeAI.train` (the `last*` observation fields
are initialized arbitrarily). -/
def initTrainSt (g : Game) : TrainSt :=
  { game := g, table := [], stepsWithoutFruit := 0, movesMade := 0,
    cu := 0, ca := 0, cr := 0,
    lastOldState := stateB, lastAction := 0, lastReward := 0,
    lastNewState := stateB, lastTableBeforeUpdate := [] }

/-- Draw streams that always explore and always turn right; the fruit
respawn draws are all 0. -/
def rngTurnRight : Rng :=
  { u := fun _ => 0, a := fun _ => 2, rr := fun _ => 0 }

/-- Draw streams that always explore and always go straight; the fruit
respawn draws are all 0. -/
def rngStraight : Rng :=
  { u := fun _ => 0, a := fun _ => 0, rr := fun _ => 0 }

/-- A fresh game whose fruit sits at (40, 40), far from the snake's 2-by-2
clockwise cycle around the center. -/
def stStagnate : TrainSt :=
  initTrainSt (Game.init 0 0)

/-- The stagnating loop state with its counter already at 100. -/
def stHighCounter : TrainSt :=
  { initTrainSt (Game.init 0 0) with stepsWithoutFruit := 100 }

/-- A game whose snake head at (400, 280) heads right, one cell left of the
fruit at (420, 280): the next tick consumes the fruit. -/
def gameEat : Game :=
  { Game.init 19 12 with snake := Snake.init (400, 280) 20 }

/-- The episode state for the fruit-consumption scenario. -/
def stEat : TrainSt :=
  initTrainSt gameEat

/-- The result of the fruit-consumption tick. -/
def stEatRes : TrainSt :=
  (loopStep 1 rngStraight 5 stEat).getD stEat

/-- The game of `gameEat` after one raw simulation update. -/
def gEatRes : Game × ℕ :=
  (Game.update gameEat (fun _ => 0) 5 0).getD (gameEat, 0)

/-- A game whose single-segment snake at (0, 300) heads left: the next tick
drives the head to (-20, 300), a left-wall collision. -/
def gameLeftWall : Game :=
  { Game.init 19 12 with
      snake := { body := [(0, 300)], direction := .LEFT, blockSize := 20,
                 growthPending := false } }

/-- The episode state for the left-wall collision scenario. -/
def stLeftWall : TrainSt :=
  initTrainSt gameLeftWall

/-- The result of the left-wall collision tick. -/
def stLeftWallRes : TrainSt :=
  (loopStep 1 rngStraight 5 stLeftWall).getD stLeftWall

/-! ### Helper lemmas about the Q-table operations -/

theorem lookupD_ensureT (t : QTable) (s s' : EncState) :
    lookupD (ensureT t s) s' = lookupD t s' := by
  unfold ensureT
  cases h : lookupT t s with
  | none =>
    by_cases hs : s' = s
    · subst hs
      simp [lookupD, lookupT, h]
    · simp [lookupD, lookupT, hs]
  | some v => rfl

theorem lookupT_ensureT_self (t : QTable) (s : EncState) :
    (lookupT (ensureT t s) s).isSome = true := by
  unfold ensureT
  cases h : lookupT t s with
  | none => simp [lookupT]
  | some v => simp [h]

theorem lookupT_ensureT_isSome_of_isSome (t : QTable) (s s' : EncState)
    (h : (lookupT t s').isSome = true) :
    (lookupT (ensureT t s) s').isSome = true := by
  unfold ensureT
  cases hs : lookupT t s with
  | none =>
    by_cases hss : s' = s
    · simp [lookupT, hss]
    · simpa [lookupT, hss] using h
  | some v => exact h

theorem getA_setA_self (i : Fin 3) (x : ℚ) (v : Vec3) :
    getA i (setA i x v) = x := by
  fin_cases i <;> rfl

theorem lookupD_setT_self (t : QTable) (s : EncState) (w : Vec3)
    (h : (lookupT t s).isSome = true) :
    lookupD (setT t s w) s = w := by
  induction t with
  | nil => simp [lookupT] at h
  | cons kv t ih =>
    obtain ⟨k, v⟩ := kv
    by_cases hs : s = k
    · simp [setT, hs, lookupD, lookupT]
    · simp only [lookupT, if_neg hs] at h
      simpa [setT, hs, lookupD, lookupT] using ih h

theorem lookupD_setT_ne (t : QTable) (s s' : EncState) (w : Vec3)
    (h : s' ≠ s) :
    lookupD (setT t s w) s' = lookupD t s' := by
  induction t with
  | nil => rfl
  | cons kv t ih =>
    obtain ⟨k, v⟩ := kv
    by_cases hs : s = k
    · subst hs
      simp [setT, lookupD, lookupT, h]
    · by_cases hs' : s' = k
      · simp [setT, hs, lookupD, lookupT, hs']
      · simpa [setT, hs, lookupD, lookupT, hs'] using ih

theorem qUpdate_getA (lr γ r : ℚ) (t : QTable) (old new : EncState) (a : Fin 3) :
    getA a (lookupD (qUpdate lr γ t old a r new) old) =
      getA a (lookupD t old) +
        lr * (r + γ * maxV (lookupD t new) - getA a (lookupD t old)) := by
  unfold qUpdate
  have hpresent : (lookupT (ensureT (ensureT t old) new) old).isSome = true :=
    lookupT_ensureT_isSome_of_isSome _ _ _ (lookupT_ensureT_self t old)
  rw [lookupD_setT_self _ _ _ hpresent, getA_setA_self,
    lookupD_ensureT, lookupD_ensureT, lookupD_ensureT, lookupD_ensureT]

theorem qUpdate_lookupD_ne (lr γ r : ℚ) (t : QTable) (old new : EncState)
    (a : Fin 3) (s : EncState) (h : s ≠ old) :
    lookupD (qUpdate lr γ t old a r new) s = lookupD t s := by
  unfold qUpdate
  rw [lookupD_setT_ne _ _ _ _ h, lookupD_ensureT, lookupD_ensureT]

theorem argmax3_spec (v : Vec3) :
    getA (argmax3 v) v = maxV v ∧ ∀ j : Fin 3, j < argmax3 v → getA j v < maxV v := by
  obtain ⟨a, b, c⟩ := v
  simp only [argmax3, maxV]
  split_ifs with h1 h2 h3
  · refine ⟨?_, ?_⟩
    · show a = max a (max b c)
      rw [max_eq_left (max_le h1 h2)]
    · intro j hj
      exact absurd hj (Fin.not_lt_zero j)
  · have hc : a < c := lt_of_not_ge h2
    have hmax : max a (max b c) = c := by
      rw [max_eq_right (le_trans h1 hc.le), max_eq_right hc.le]
    refine ⟨?_, ?_⟩
    · show c = max a (max b c)
      rw [hmax]
    · intro j hj
      fin_cases j
      · show a < max a (max b c)
        rw [hmax]; exact hc
      · show b < max a (max b c)
        rw [hmax]; exact lt_of_le_of_lt h1 hc
      · exact absurd hj (by decide)
  · have hb : a < b := lt_of_not_ge h1
    have hmax : max a (max b c) = b := by
      rw [max_eq_left h3, max_eq_right hb.le]
    refine ⟨?_, ?_⟩
    · show b = max a (max b c)
      rw [hmax]
    · intro j hj
      fin_cases j
      · show a < max a (max b c)
        rw [hmax]; exact hb
      · exact absurd hj (by decide)
      · exact absurd hj (by decide)
  · have hb : a < b := lt_of_not_ge h1
    have hc : b < c := lt_of_not_ge h3
    have hmax : max a (max b c) = c := by
      rw [max_eq_right hc.le, max_eq_right (le_trans hb.le hc.le)]
    refine ⟨?_, ?_⟩
    · show c = max a (max b c)
      rw [hmax]
    · intro j hj
      fin_cases j
      · show a < max a (max b c)
        rw [hmax]; exact lt_trans hb hc
      · show b < max a (max b c)
        rw [hmax]; exact hc
      · exact absurd hj (by decide)

/-! ### Helper lemmas about the epsilon-decay schedule -/

theorem epsilonDecay_pow_2300_gt : epsilonMin < epsilonDecay ^ 2300 := by
  norm_num [epsilonMin, epsilonDecay]

theorem epsilonDecay_pow_2301_lt : epsilonDecay ^ 2301 < epsilonMin := by
  norm_num [epsilonMin, epsilonDecay]

theorem epsAfter_eq_pow {n : ℕ} (hn : n ≤ 2301) : epsAfter n = epsilonDecay ^ n := by
  induction n with
  | zero => simp [epsAfter, epsilonStart]
  | succ n ih =>
    have hn' : n ≤ 2300 := by omega
    have h1 : epsilonDecay ^ 2300 ≤ epsilonDecay ^ n :=
      pow_le_pow_of_le_one (by norm_num [epsilonDecay]) (by norm_num [epsilonDecay]) hn'
    have h2 : epsilonMin < epsilonDecay ^ n := lt_of_lt_of_le epsilonDecay_pow_2300_gt h1
    show epsStep (epsAfter n) = _
    rw [ih (by omega), epsStep, if_pos h2, mul_comm, ← pow_succ']

theorem epsAfter_eq_of_ge {n : ℕ} (hn : 2301 ≤ n) :
    epsAfter n = epsilonDecay ^ 2301 := by
  induction n with
  | zero => omega
  | succ n ih =>
    by_cases h : 2301 ≤ n
    · show epsStep (epsAfter n) = _
      rw [ih h, epsStep, if_neg (not_lt.mpr epsilonDecay_pow_2301_lt.le)]
    · have hn1 : n + 1 = 2301 := by omega
      rw [hn1]
      exact epsAfter_eq_pow le_rfl

/-- C1 (counterexample): after 2301 completed episodes the code's epsilon is
`0.998 ^ 2301 ≈ 0.009986`, strictly below the floor `0.01`, so it differs
from the claimed `max(epsilon_min, epsilon_start * decay ^ N)`. -/
theorem epsAfter_2301_ne_claimed :
    epsAfter 2301 ≠ max epsilonMin (epsilonStart * epsilonDecay ^ 2301) := by
  have h := epsAfter_eq_pow (le_refl 2301)
  have hmax : max epsilonMin (epsilonStart * epsilonDecay ^ 2301) = epsilonMin := by
    rw [show epsilonStart * epsilonDecay ^ 2301 = epsilonDecay ^ 2301 by
      simp [epsilonStart]]
    exact max_eq_left epsilonDecay_pow_2301_lt.le
  rw [h, hmax]
  exact ne_of_lt epsilonDecay_pow_2301_lt

/-- C1 (amended): the decay is only applied while epsilon still exceeds the
floor, so after N completed episodes epsilon equals `decay ^ min N 2301`:
it follows `decay ^ N` up to episode 2301, then freezes at
`decay ^ 2301 ≈ 0.009986`, one decay factor below the floor `0.01`; it never
goes below `epsilon_min * decay`. -/
theorem epsAfter_closed_form :
    (∀ n : ℕ, epsAfter n = epsilonDecay ^ min n 2301) ∧
    (∀ n : ℕ, epsilonMin * epsilonDecay < epsAfter n) := by
  have hform : ∀ n : ℕ, epsAfter n = epsilonDecay ^ min n 2301 := by
    intro n
    rcases le_or_lt n 2301 with h | h
    · rw [min_eq_left h]
      exact epsAfter_eq_pow h
    · rw [min_eq_right h.le]
      exact epsAfter_eq_of_ge h.le
  refine ⟨hform, fun n => ?_⟩
  rw [hform n]
  have h1 : epsilonDecay ^ 2301 ≤ epsilonDecay ^ min n 2301 :=
    pow_le_pow_of_le_one (by norm_num [epsilonDecay]) (by norm_num [epsilonDecay])
      (min_le_right n 2301)
  refine lt_of_lt_of_le ?_ h1
  calc epsilonMin * epsilonDecay
      < epsilonDecay ^ 2300 * epsilonDecay :=
        mul_lt_mul_of_pos_right epsilonDecay_pow_2300_gt (by norm_num [epsilonDecay])
    _ = epsilonDecay ^ 2301 := by rw [← pow_succ]

/-- C4: the learner's update sets `ValueTable[old][a]` to
`old + lr * (reward + discount * max(ValueTable[new]) - old)`, inserting
zero-triples for absent states first; in particular, from fresh zero entries
a single update with reward `r` moves the action-value to exactly `lr * r`. -/
theorem qUpdate_bellman :
    (∀ (lr γ r : ℚ) (t : QTable) (old new : EncState) (a : Fin 3),
      getA a (lookupD (qUpdate lr γ t old a r new) old) =
        getA a (lookupD t old) +
          lr * (r + γ * maxV (lookupD t new) - getA a (lookupD t old))) ∧
    (∀ (lr γ r : ℚ) (t : QTable) (old new : EncState) (a : Fin 3),
      lookupT t old = none → lookupT t new = none →
      getA a (lookupD (qUpdate lr γ t old a r new) old) = lr * r) := by
  refine ⟨fun lr γ r t old new a => qUpdate_getA lr γ r t old new a,
    fun lr γ r t old new a h1 h2 => ?_⟩
  have hold : lookupD t old = ((0, 0, 0) : Vec3) := by rw [lookupD, h1]; rfl
  have hnew : lookupD t new = ((0, 0, 0) : Vec3) := by rw [lookupD, h2]; rfl
  rw [qUpdate_getA, hold, hnew]
  have hget : getA a ((0, 0, 0) : Vec3) = 0 := by fin_cases a <;> rfl
  rw [hget]
  show 0 + lr * (r + γ * maxV (0, 0, 0) - 0) = lr * r
  norm_num [maxV]

/-- C4 witness: one update with reward 7 on a fresh table stores `0.05 * 7`. -/
theorem qUpdate_bellman_witness :
    getA 0 (lookupD (qUpdate learningRate discountFactor [] stateA 0 7 stateB) stateA) =
      learningRate * 7 :=
  qUpdate_bellman.2 learningRate discountFactor 7 [] stateA stateB 0 rfl rfl

/-- C6: with epsilon 0 and a nonnegative uniform draw, `get_action` never
takes the random branch: it inserts a zero-triple for an unseen state and
returns the lowest index attaining the maximum of the state's 3 values. -/
theorem getAction_greedy_spec (u : ℚ) (ra : Fin 3) (t : QTable) (s : EncState)
    (hu : 0 ≤ u) :
    (getAction 0 u ra t s).1 = argmax3 (lookupD (ensureT t s) s) ∧
    (getAction 0 u ra t s).2 = ensureT t s ∧
    getA (argmax3 (lookupD (ensureT t s) s)) (lookupD (ensureT t s) s) =
      maxV (lookupD (ensureT t s) s) ∧
    ∀ j : Fin 3, j < argmax3 (lookupD (ensureT t s) s) →
      getA j (lookupD (ensureT t s) s) < maxV (lookupD (ensureT t s) s) := by
  have hbranch : ¬ (u < (0 : ℚ)) := not_lt.mpr hu
  simp only [getAction, if_neg hbranch]
  exact ⟨trivial, trivial, (argmax3_spec _).1, (argmax3_spec _).2⟩

/-- C6 witness: epsilon 0 on a table with distinct known values returns the
index of the maximum. -/
theorem getAction_greedy_spec_witness :
    (getAction 0 0 0 [(stateA, (1, 3, 2))] stateA).1 =
        argmax3 (lookupD (ensureT [(stateA, (1, 3, 2))] stateA) stateA) ∧
    (getAction 0 0 0 [(stateA, (1, 3, 2))] stateA).2 =
        ensureT [(stateA, (1, 3, 2))] stateA ∧
    getA (argmax3 (lookupD (ensureT [(stateA, (1, 3, 2))] stateA) stateA))
        (lookupD (ensureT [(stateA, (1, 3, 2))] stateA) stateA) =
      maxV (lookupD (ensureT [(stateA, (1, 3, 2))] stateA) stateA) ∧
    ∀ j : Fin 3, j < argmax3 (lookupD (ensureT [(stateA, (1, 3, 2))] stateA) stateA) →
      getA j (lookupD (ensureT [(stateA, (1, 3, 2))] stateA) stateA) <
        maxV (lookupD (ensureT [(stateA, (1, 3, 2))] stateA) stateA) :=
  getAction_greedy_spec 0 0 [(stateA, (1, 3, 2))] stateA le_rfl

/-- C7: a single-segment snake at the grid center (400, 300) heading right,
with the fruit one cell right and one cell up at (420, 280), encodes to: no
dangers, fruit-right and fruit-above true, the other fruit flags false, and
heading-right the only true heading flag. -/
theorem getState_center_scenario :
    (Game.init 19 12).snake.body = [(400, 300)] ∧
    (Game.init 19 12).snake.direction = Direction.RIGHT ∧
    (Game.init 19 12).fruit.position = (420, 280) ∧
    getState (Game.init 19 12) =
      ⟨false, false, false, true, false, false, true, false, false, false, true⟩ := by
  refine ⟨rfl, rfl, by decide, by decide⟩

/-- C9: turn-left then turn-right restores the heading, and so do turn-right
then turn-left and four successive identical turns. -/
theorem applyAction_turn_roundtrips (g : Game) :
    (applyAction (applyAction g 1) 2).snake.direction = g.snake.direction ∧
    (applyAction (applyAction g 2) 1).snake.direction = g.snake.direction ∧
    (applyAction (applyAction (applyAction (applyAction g 1) 1) 1) 1).snake.direction
      = g.snake.direction ∧
    (applyAction (applyAction (applyAction (applyAction g 2) 2) 2) 2).snake.direction
      = g.snake.direction := by
  obtain ⟨w, h, bs, ⟨body, dir, sbs, gp⟩, f, sc, go, sp⟩ := g
  cases dir <;> exact ⟨rfl, rfl, rfl, rfl⟩

/-- C10: any action other than 1 and 2 leaves the game untouched, and
`apply_action` never modifies anything but the snake's heading. -/
theorem applyAction_frame :
    (∀ (g : Game) (a : ℤ), a ≠ 1 → a ≠ 2 → applyAction g a = g) ∧
    (∀ (g : Game) (a : ℤ),
      (applyAction g a).width = g.width ∧
      (applyAction g a).height = g.height ∧
      (applyAction g a).blockSize = g.blockSize ∧
      (applyAction g a).fruit = g.fruit ∧
      (applyAction g a).score = g.score ∧
      (applyAction g a).gameOver = g.gameOver ∧
      (applyAction g a).speed = g.speed ∧
      (applyAction g a).snake.body = g.snake.body ∧
      (applyAction g a).snake.blockSize = g.snake.blockSize ∧
      (applyAction g a).snake.growthPending = g.snake.growthPending) := by
  constructor
  · intro g a h1 h2
    simp only [applyAction, if_neg h1, if_neg h2]
  · intro g a
    simp only [applyAction]
    split_ifs <;> simp

/-- C10 witness: the straight action 0 and the out-of-range action 5 leave a
concrete game unchanged. -/
theorem applyAction_frame_witness :
    applyAction (Game.init 0 0) 0 = Game.init 0 0 ∧
    applyAction (Game.init 0 0) 5 = Game.init 0 0 :=
  ⟨applyAction_frame.1 (Game.init 0 0) 0 (by decide) (by decide),
   applyAction_frame.1 (Game.init 0 0) 5 (by decide) (by decide)⟩

/-- C5: iterating the learner's update on a fixed (state, action) pair with a
distinct next state, constant reward and learning rate in (0,1) produces a
monotone sequence of action-values (non-decreasing from below the fixed
point, non-increasing from above) converging to
`reward + discount_factor * max(ValueTable[new_state])`. -/
theorem qUpdate_iter_monotone_limit (lr γ r : ℚ) (t : QTable)
    (old new : EncState) (a : Fin 3) (q : ℕ → ℚ) (F : ℚ)
    (hne : old ≠ new) (hlr0 : 0 < lr) (hlr1 : lr < 1)
    (hq : ∀ n : ℕ,
      q n = getA a (lookupD ((fun t' => qUpdate lr γ t' old a r new)^[n] t) old))
    (hF : F = r + γ * maxV (lookupD t new)) :
    (q 0 ≤ F → ∀ n : ℕ, q n ≤ q (n + 1) ∧ q n ≤ F) ∧
    (F ≤ q 0 → ∀ n : ℕ, q (n + 1) ≤ q n ∧ F ≤ q n) ∧
    (∀ ε : ℚ, 0 < ε → ∃ N : ℕ, ∀ n : ℕ, N ≤ n → |q n - F| < ε) := by
  have hM : ∀ n : ℕ,
      maxV (lookupD ((fun t' => qUpdate lr γ t' old a r new)^[n] t) new) =
        maxV (lookupD t new) := by
    intro n
    induction n with
    | zero => rfl
    | succ n ih =>
      rw [Function.iterate_succ_apply',
        qUpdate_lookupD_ne lr γ r _ old new a new (Ne.symm hne), ih]
  have hrec : ∀ n : ℕ, q (n + 1) = q n + lr * (F - q n) := by
    intro n
    rw [hq (n + 1), hq n, Function.iterate_succ_apply', qUpdate_getA, hM n, hF]
  have hd : ∀ n : ℕ, q n - F = (1 - lr) ^ n * (q 0 - F) := by
    intro n
    induction n with
    | zero => simp
    | succ n ih =>
      calc q (n + 1) - F = (1 - lr) * (q n - F) := by rw [hrec n]; ring
        _ = (1 - lr) * ((1 - lr) ^ n * (q 0 - F)) := by rw [ih]
        _ = (1 - lr) ^ (n + 1) * (q 0 - F) := by ring
  have hpownn : ∀ n : ℕ, (0 : ℚ) ≤ (1 - lr) ^ n :=
    fun n => pow_nonneg (by linarith) n
  refine ⟨?_, ?_, ?_⟩
  · intro h0 n
    have hle : q n ≤ F := by
      have h1 : (1 - lr) ^ n * (q 0 - F) ≤ 0 :=
        mul_nonpos_of_nonneg_of_nonpos (hpownn n) (by linarith)
      have h2 := hd n
      linarith
    have hstep : q n ≤ q (n + 1) := by
      have h3 : 0 ≤ lr * (F - q n) :=
        mul_nonneg hlr0.le (by linarith)
      have h4 := hrec n
      linarith
    exact ⟨hstep, hle⟩
  · intro h0 n
    have hge : F ≤ q n := by
      have h1 : 0 ≤ (1 - lr) ^ n * (q 0 - F) :=
        mul_nonneg (hpownn n) (by linarith)
      have h2 := hd n
      linarith
    have hstep : q (n + 1) ≤ q n := by
      have h3 : lr * (F - q n) ≤ 0 :=
        mul_nonpos_of_nonneg_of_nonpos hlr0.le (by linarith)
      have h4 := hrec n
      linarith
    exact ⟨hstep, hge⟩
  · intro ε hε
    by_cases hz : q 0 - F = 0
    · refine ⟨0, fun n _ => ?_⟩
      have h1 : q n - F = 0 := by rw [hd n, hz, mul_zero]
      rw [h1, abs_zero]
      exact hε
    · have habs : 0 < |q 0 - F| := abs_pos.mpr hz
      obtain ⟨N, hN⟩ :=
        exists_pow_lt_of_lt_one (div_pos hε habs) (by linarith : 1 - lr < 1)
      refine ⟨N, fun n hn => ?_⟩
      have h1n : |q n - F| = (1 - lr) ^ n * |q 0 - F| := by
        rw [hd n, abs_mul, abs_pow, abs_of_nonneg (by linarith : (0 : ℚ) ≤ 1 - lr)]
      calc |q n - F| = (1 - lr) ^ n * |q 0 - F| := h1n
        _ ≤ (1 - lr) ^ N * |q 0 - F| :=
            mul_le_mul_of_nonneg_right
              (pow_le_pow_of_le_one (by linarith) (by linarith) hn) habs.le
        _ < (ε / |q 0 - F|) * |q 0 - F| := mul_lt_mul_of_pos_right hN habs
        _ = ε := div_mul_cancel₀ ε (ne_of_gt habs)

/-- C5 witness: the concrete instantiation with the source's learning rate
0.05, reward 10, and a fresh table. -/
theorem qUpdate_iter_monotone_limit_witness :
    (getA 0 (lookupD ((fun t' => qUpdate learningRate discountFactor t' stateA 0 10 stateB)^[0] []) stateA) ≤
        10 + discountFactor * maxV (lookupD [] stateB) →
      ∀ n : ℕ,
        getA 0 (lookupD ((fun t' => qUpdate learningRate discountFactor t' stateA 0 10 stateB)^[n] []) stateA) ≤
          getA 0 (lookupD ((fun t' => qUpdate learningRate discountFactor t' stateA 0 10 stateB)^[n + 1] []) stateA) ∧
        getA 0 (lookupD ((fun t' => qUpdate learningRate discountFactor t' stateA 0 10 stateB)^[n] []) stateA) ≤
          10 + discountFactor * maxV (lookupD [] stateB)) ∧
    (10 + discountFactor * maxV (lookupD [] stateB) ≤
        getA 0 (lookupD ((fun t' => qUpdate learningRate discountFactor t' stateA 0 10 stateB)^[0] []) stateA) →
      ∀ n : ℕ,
        getA 0 (lookupD ((fun t' => qUpdate learningRate discountFactor t' stateA 0 10 stateB)^[n + 1] []) stateA) ≤
          getA 0 (lookupD ((fun t' => qUpdate learningRate discountFactor t' stateA 0 10 stateB)^[n] []) stateA) ∧
        10 + discountFactor * maxV (lookupD [] stateB) ≤
          getA 0 (lookupD ((fun t' => qUpdate learningRate discountFactor t' stateA 0 10 stateB)^[n] []) stateA)) ∧
    (∀ ε : ℚ, 0 < ε → ∃ N : ℕ, ∀ n : ℕ, N ≤ n →
      |getA 0 (lookupD ((fun t' => qUpdate learningRate discountFactor t' stateA 0 10 stateB)^[n] []) stateA) -
        (10 + discountFactor * maxV (lookupD [] stateB))| < ε) :=
  qUpdate_iter_monotone_limit learningRate discountFactor 10 [] stateA stateB 0
    (fun n => getA 0
      (lookupD ((fun t' => qUpdate learningRate discountFactor t' stateA 0 10 stateB)^[n] []) stateA))
    (10 + discountFactor * maxV (lookupD [] stateB))
    (by decide) (by norm_num [learningRate]) (by norm_num [learningRate])
    (fun n => rfl) rfl

theorem respawnLoop_not_mem (rng : ℕ → ℕ) (body : List Pos) :
    ∀ (fuel : ℕ) (f : Fruit) (c : ℕ) (f1 : Fruit) (c1 : ℕ),
      respawnLoop rng body fuel f c = some (f1, c1) → f1.position ∉ body := by
  intro fuel
  induction fuel with
  | zero => intro f c f1 c1 h; exact absurd h (by simp [respawnLoop])
  | succ fuel ih =>
    intro f c f1 c1 h
    rw [respawnLoop] at h
    split_ifs at h with hmem
    · exact ih _ _ _ _ h
    · obtain ⟨h1, h2⟩ := Prod.mk.injEq .. ▸ Option.some.inj h
      rw [← h1]
      exact hmem

/-- C3 (counterexample): at simulation construction and at reset the fruit
position is a single unchecked sample, so with draws 18 and 13 (x = 400,
y = 300) the fruit spawns exactly on the snake's only body cell. -/
theorem fruit_spawns_on_snake_at_init_and_reset :
    (Game.init 18 13).fruit.position ∈ (Game.init 18 13).snake.body ∧
    ((Game.init 0 0).reset 18 13).fruit.position ∈
      ((Game.init 0 0).reset 18 13).snake.body := by
  constructor <;> decide

/-- C3 (amended): only the post-consumption respawn in `Game.update`
re-samples until the fruit misses the snake body; one tick of the simulation
either keeps the fruit where it was or leaves it outside the snake body.  At
construction and at reset the single unchecked sample may land on the snake
(see the counterexample). -/
theorem update_fruit_position_spec (g : Game) (rng : ℕ → ℕ) (fuel c : ℕ)
    (g' : Game) (c' : ℕ) (h : Game.update g rng fuel c = some (g', c')) :
    g'.fruit.position = g.fruit.position ∨
      g'.fruit.position ∉ g'.snake.body := by
  simp only [Game.update] at h
  split_ifs at h with hgo hcol hfruit
  · obtain ⟨h1, h2⟩ := Prod.mk.injEq .. ▸ Option.some.inj h
    rw [← h1]
    exact Or.inl rfl
  · obtain ⟨h1, h2⟩ := Prod.mk.injEq .. ▸ Option.some.inj h
    rw [← h1]
    exact Or.inl rfl
  · rcases hrl : respawnLoop rng g.snake.move.grow.body fuel g.fruit c with _ | ⟨f1, c1⟩
    · rw [hrl] at h
      exact absurd h (by simp)
    · rw [hrl] at h
      obtain ⟨h1, h2⟩ := Prod.mk.injEq .. ▸ Option.some.inj h
      rw [← h1]
      exact Or.inr (respawnLoop_not_mem rng _ fuel g.fruit c f1 c1 hrl)
  · obtain ⟨h1, h2⟩ := Prod.mk.injEq .. ▸ Option.some.inj h
    rw [← h1]
    exact Or.inl rfl

/-- C3 witness: a tick that consumes the fruit at (420, 280) re-samples it to
(40, 40), outside the snake body. -/
theorem update_fruit_position_spec_witness :
    gEatRes.1.fruit.position = gameEat.fruit.position ∨
      gEatRes.1.fruit.position ∉ gEatRes.1.snake.body :=
  update_fruit_position_spec gameEat (fun _ => 0) 5 0 gEatRes.1 gEatRes.2 rfl

/-- C8: whenever an iteration of the episode loop ends with the game over,
the Q-table update of that final transition used reward -10; and once the
game-over flag is set, the episode loop performs no further iteration, so
the table stays untouched until the next episode starts. -/
theorem episode_terminal_spec (eps : ℚ) (rng : Rng) (fuel : ℕ) :
    (∀ st st' : TrainSt, loopStep eps rng fuel st = some st' →
      st'.game.gameOver = true →
      st'.lastReward = -10 ∧
      st'.table = qUpdate learningRate discountFactor st'.lastTableBeforeUpdate
        st'.lastOldState st'.lastAction (-10) st'.lastNewState) ∧
    (∀ (n : ℕ) (st : TrainSt), st.game.gameOver = true →
      runEpisode eps rng fuel n st = some st) := by
  constructor
  · intro st st' h hov
    simp only [loopStep] at h
    split at h
    · exact absurd h (by simp)
    · split_ifs at h
      all_goals obtain rfl : _ = st' := Option.some.inj h
      all_goals try exact ⟨rfl, rfl⟩
      all_goals simp at hov
      all_goals exact absurd hov (by assumption)
  · intro n st h
    cases n with
    | zero => simp [runEpisode, h]
    | succ n => simp [runEpisode, h]

/-- C8 witness: the episode tick in which the snake hits the left wall feeds
reward -10 to the final Q-table update, and the loop does not run again. -/
theorem episode_terminal_spec_witness :
    (stLeftWallRes.lastReward = -10 ∧
      stLeftWallRes.table = qUpdate learningRate discountFactor
        stLeftWallRes.lastTableBeforeUpdate stLeftWallRes.lastOldState
        stLeftWallRes.lastAction (-10) stLeftWallRes.lastNewState) ∧
    runEpisode 1 rngStraight 5 3 stLeftWallRes = some stLeftWallRes :=
  ⟨(episode_terminal_spec 1 rngStraight 5).1 stLeftWall stLeftWallRes rfl rfl,
   (episode_terminal_spec 1 rngStraight 5).2 3 stLeftWallRes rfl⟩

/-- C2 (counterexample): an episode in which the snake circles without ever
scoring is still running after 100 consecutive stagnant ticks (score still 0,
stagnation counter at 100, game not over). -/
theorem stagnation_100_ticks_not_terminated :
    (iterSteps 1 rngTurnRight 5 100 stStagnate).map
        (fun st => (st.game.gameOver, st.game.score, st.stepsWithoutFruit)) =
      some (false, 0, 100) := by
  decide

/-- C2 (amended): force-termination with reward -10 happens on the 101st
consecutive stagnant tick, when the counter exceeds 100 (not after 100
ticks); whenever an iteration raises the score with the game still running,
the stagnation counter is reset to 0. -/
theorem stagnation_termination_spec :
    ((iterSteps 1 rngTurnRight 5 101 stStagnate).map
        (fun st => (st.game.gameOver, st.game.score, st.stepsWithoutFruit, st.lastReward)) =
      some (true, 0, 101, -10)) ∧
    (∀ (eps : ℚ) (rng : Rng) (fuel : ℕ) (st st' : TrainSt),
      loopStep eps rng fuel st = some st' → st'.game.gameOver = false →
      st.game.score < st'.game.score → st'.stepsWithoutFruit = 0) ∧
    (∀ (eps : ℚ) (rng : Rng) (fuel : ℕ) (st st' : TrainSt),
      loopStep eps rng fuel st = some st' → 100 < st'.stepsWithoutFruit →
      st'.game.gameOver = true ∧ st'.lastReward = -10) := by
  refine ⟨by decide, ?_, ?_⟩
  · intro eps rng fuel st st' h hov hscore
    simp only [loopStep] at h
    split at h
    · exact absurd h (by simp)
    · split_ifs at h
      all_goals obtain rfl : _ = st' := Option.some.inj h
      all_goals try rfl
      all_goals simp_all
  · intro eps rng fuel st st' h hcnt
    simp only [loopStep] at h
    split at h
    · exact absurd h (by simp)
    · split_ifs at h
      all_goals obtain rfl : _ = st' := Option.some.inj h
      all_goals try exact ⟨rfl, rfl⟩
      all_goals simp_all

/-- C2 witness: a scoring tick resets the counter to 0, and a tick pushing
the counter to 101 force-terminates with reward -10. -/
theorem stagnation_termination_spec_witness :
    stEatRes.stepsWithoutFruit = 0 ∧
    (((loopStep 1 rngTurnRight 5 stHighCounter).getD stHighCounter).game.gameOver = true ∧
      ((loopStep 1 rngTurnRight 5 stHighCounter).getD stHighCounter).lastReward = -10) :=
  ⟨stagnation_termination_spec.2.1 1 rngStraight 5 stEat stEatRes rfl rfl (by decide),
   stagnation_termination_spec.2.2 1 rngTurnRight 5 stHighCounter
     ((loopStep 1 rngTurnRight 5 stHighCounter).getD stHighCounter) rfl (by decide)⟩
